import Mathlib

/-!
# Formal model of the call orchestration and peer-negotiation engine

A shallow embedding of the signaling/negotiation logic of
`src/hooks/useWebRTC.ts` (the repository keeps several near-duplicate
revisions of this hook; the first revision in that file is the primary
model, and the incoming-call listener of the second revision is modelled
separately where the two diverge).

Conventions of the embedding:
* `RTCPeerConnection` becomes the structure `PC`; the identity of the
  underlying browser object is modelled by the numeric handle `pcId`,
  so "the same link" means "the same `pcId`".
* SDP descriptions are abstracted to their provenance: an offer records
  its creator, an answer records the answerer and the creator of the
  offer it answers.  ICE candidates are opaque numbers.
* The mutable refs of the hook (`peerConnections`, `pendingCandidates`,
  `offerCreatedFor`, `callStateRef`, ...) become fields of `Session`.
* Every operation is a pure function `Session → Session × List Eff`,
  where `Eff` records the externally visible side effects (messages
  sent on a broadcast topic, peer connections closed, media tracks
  stopped, channels removed).  `try`/`catch` blocks that absorb errors
  become the identity on the state.
-/

inductive CallState
  | idle
  | ringing
  | connecting
  | connected
  | ended
deriving DecidableEq, Repr

inductive SigState
  | stable
  | haveLocalOffer
  | haveRemoteOffer
deriving DecidableEq, Repr

inductive ConnState
  | new
  | connecting
  | connected
  | disconnected
  | failed
  | closed
deriving DecidableEq, Repr

/-- A session description, abstracted to its provenance: `offer c` is an
offer created by participant `c`; `answer a c` is an answer created by
`a` to an offer created by `c`. -/
inductive Desc
  | offer (creator : String)
  | answer (answerer : String) (offerCreator : String)
deriving DecidableEq, Repr

def offerCreatorOf : Desc → String
  | Desc.offer c => c
  | Desc.answer _ c => c

/-- The JavaScript `<` comparison on participant-id strings:
lexicographic on code points.  (Defined recursively so that it
evaluates inside the kernel; `String.lt`'s decidability procedure does
not reduce.) -/
def charsLt : List Char → List Char → Bool
  | [], [] => false
  | [], _ :: _ => true
  | _ :: _, [] => false
  | c :: cs, d :: ds =>
    if c.toNat < d.toNat then true
    else if d.toNat < c.toNat then false
    else charsLt cs ds

def idLt (x y : String) : Bool := charsLt x.data y.data

/-- The wire entity of §6: a signaling message on a broadcast topic. -/
structure SignalMsg where
  stype : String
  from_ : String
  to_ : String
  roomId : String
  sdp : Option Desc := none
  candidate : Option Nat := none
  isVideo : Option Bool := none
  participants : Option (List String) := none
deriving DecidableEq, Repr

/-- One `RTCPeerConnection`.  `pcId` models the identity of the
underlying object; `applied` is the list of ICE candidates passed to
`addIceCandidate`, in order. -/
structure PC where
  pcId : Nat
  connectionState : ConnState := ConnState.new
  signalingState : SigState := SigState.stable
  localDesc : Option Desc := none
  remoteDesc : Option Desc := none
  applied : List Nat := []
  tracks : List Nat := []
deriving DecidableEq, Repr

/-- A local media stream (`MediaStream`): an id and its tracks. -/
structure MediaStream where
  streamId : Nat
  tracks : List Nat
deriving DecidableEq, Repr

structure IncomingCallData where
  from_ : String
  roomId : String
  isVideo : Bool
  participants : List String
deriving DecidableEq, Repr

/-- Externally visible side effects of an operation. -/
inductive Eff
  | send (topic : String) (m : SignalMsg)
  | closePC (pcId : Nat)
  | stopTrack (t : Nat)
  | removeChannel (topic : String)
deriving DecidableEq, Repr

/-! ### Association lists

`Map<string, T>` refs become association lists keyed by peer id, with
at most one binding per key maintained by construction. -/

def lookupA {α : Type} (k : String) : List (String × α) → Option α
  | [] => none
  | (k', v) :: rest => if k' = k then some v else lookupA k rest

def insertA {α : Type} (k : String) (v : α) : List (String × α) → List (String × α)
  | [] => [(k, v)]
  | (k', v') :: rest => if k' = k then (k, v) :: rest else (k', v') :: insertA k v rest

def eraseA {α : Type} (k : String) : List (String × α) → List (String × α)
  | [] => []
  | (k', v') :: rest => if k' = k then rest else (k', v') :: eraseA k rest

def updateA {α : Type} (k : String) (f : α → α) : List (String × α) → List (String × α)
  | [] => []
  | (k', v') :: rest => if k' = k then (k', f v') :: rest else (k', v') :: updateA k f rest

/-- The whole mutable state of one `useWebRTC` instance: the React state
variables together with the refs the callbacks read. -/
structure Session where
  myUserId : String
  callState : CallState := CallState.idle
  localStream : Option MediaStream := none
  remoteStreams : List (String × Nat) := []
  incomingCall : Option IncomingCallData := none
  currentRoomId : Option String := none
  currentCallTargets : List String := []
  errorMsg : Option String := none
  peerConnections : List (String × PC) := []
  pendingCandidates : List (String × List Nat) := []
  offerCreatedFor : List String := []
  allParticipants : List String := []
  processedCalls : List String := []
  channelOpen : Bool := false
  isMuted : Bool := false
  isCameraOff : Bool := false
  isScreenSharing : Bool := false
  isVideoCall : Bool := true
  nextPcId : Nat := 0
deriving DecidableEq, Repr

def initSession (uid : String) : Session := { myUserId := uid }

/-- Replace the peer connection stored under `p` (no-op when absent),
mirroring mutation of the object held in `peerConnections.current`. -/
def setPC (p : String) (f : PC → PC) (s : Session) : Session :=
  { s with peerConnections := updateA p f s.peerConnections }

/-- Operation `cleanup` (first revision): close every peer connection, clear the
maps, stop the local tracks, remove the call channel and reset every
state field to its idle value. -/
def cleanup (s : Session) : Session × List Eff :=
  let closes := s.peerConnections.map (fun pv => Eff.closePC pv.2.pcId)
  let stops :=
    match s.localStream with
    | some st => st.tracks.map Eff.stopTrack
    | none => []
  let chan := if s.channelOpen then [Eff.removeChannel "call-room"] else []
  ({ s with
      peerConnections := []
      pendingCandidates := []
      offerCreatedFor := []
      allParticipants := []
      localStream := none
      remoteStreams := []
      callState := CallState.idle
      currentRoomId := none
      currentCallTargets := []
      isScreenSharing := false
      isMuted := false
      isCameraOff := false
      errorMsg := none
      channelOpen := false },
   closes ++ stops ++ chan)

/-- Operation `makePeer` (first revision, `useWebRTC.ts` lines 151-228): reuse the
existing connection only when its `connectionState` is `connected` or
`connecting`; otherwise close it, remove it and create a fresh
`RTCPeerConnection`.  Returns the link together with the new state and
effects. -/
def makePeer (peerId : String) (st : MediaStream) (s : Session) : PC × Session × List Eff :=
  let fresh : Session → List Eff → PC × Session × List Eff := fun s0 effs =>
    let pc : PC := { pcId := s0.nextPcId, tracks := st.tracks }
    (pc,
     { s0 with
        peerConnections := insertA peerId pc s0.peerConnections
        nextPcId := s0.nextPcId + 1 },
     effs)
  match lookupA peerId s.peerConnections with
  | some existing =>
    if existing.connectionState = ConnState.connected ∨
       existing.connectionState = ConnState.connecting then
      (existing, s, [])
    else
      fresh { s with peerConnections := eraseA peerId s.peerConnections }
            [Eff.closePC existing.pcId]
  | none => fresh s []

/-- Operation `createPeerConnection` (second revision, lines 1048-1116): reuse the
existing connection unless its `connectionState` is `closed` or
`failed`; a still-`new` link is reused. -/
def createPeerConnection (peerId : String) (st : MediaStream) (s : Session) : PC × Session × List Eff :=
  match lookupA peerId s.peerConnections with
  | some existing =>
    if existing.connectionState ≠ ConnState.closed ∧
       existing.connectionState ≠ ConnState.failed then
      (existing, s, [])
    else
      let pc : PC := { pcId := s.nextPcId, tracks := st.tracks }
      (pc,
       { s with
          peerConnections := insertA peerId pc
            (eraseA peerId s.peerConnections)
          nextPcId := s.nextPcId + 1 },
       [])
  | none =>
    let pc : PC := { pcId := s.nextPcId, tracks := st.tracks }
    (pc,
     { s with
        peerConnections := insertA peerId pc s.peerConnections
        nextPcId := s.nextPcId + 1 },
     [])

/-- Operation `sendOffer` (lines 231-267): idempotent per peer via the
`offerCreatedFor` set; creates an offer, sets it as local description
and broadcasts it on the call channel. -/
def sendOffer (peerId : String) (roomId : String) (s : Session) : Session × List Eff :=
  if peerId ∈ s.offerCreatedFor then (s, [])
  else
    let s1 := { s with offerCreatedFor := peerId :: s.offerCreatedFor }
    let offerMsg : Desc := Desc.offer s.myUserId
    let s2 := setPC peerId
      (fun pc => { pc with
          signalingState := SigState.haveLocalOffer
          localDesc := some offerMsg }) s1
    let effs :=
      if s.channelOpen then
        [Eff.send ("call-room-" ++ roomId)
          { stype := "offer", from_ := s.myUserId, to_ := peerId,
            roomId := roomId, sdp := some offerMsg }]
      else []
    (s2, effs)

/-- Append a candidate to a peer's pending queue (the
`pendingCandidates` map), creating the entry on first use. -/
def pushCand (p : String) (c : Nat) (q : List (String × List Nat)) : List (String × List Nat) :=
  match lookupA p q with
  | some l => insertA p (l ++ [c]) q
  | none => insertA p [c] q

/-- Operation `flushCandidates` (lines 270-279): apply every queued candidate for
`p` in arrival order, then delete the queue entry. -/
def flushCandidates (p : String) (s : Session) : Session :=
  match lookupA p s.pendingCandidates with
  | some q =>
    if q = [] then s
    else
      { setPC p (fun pc => { pc with applied := pc.applied ++ q }) s
        with pendingCandidates := eraseA p s.pendingCandidates }
  | none => s

/-- Case `call-accept` of `handleSignal` (lines 289-296). -/
def onCallAccept (msg : SignalMsg) (s : Session) : Session × List Eff :=
  let roomId := s.currentRoomId.getD msg.roomId
  let s1 := { s with callState := CallState.connecting }
  match s.localStream with
  | none => (s1, [])
  | some st =>
    let mk := makePeer msg.from_ st s1
    let so := sendOffer msg.from_ roomId mk.2.1
    (so.1, mk.2.2 ++ so.2)

/-- Case `participant-joined` of `handleSignal` (lines 298-313): only the
lower id creates the offer; the higher id just prepares the link. -/
def onParticipantJoined (msg : SignalMsg) (s : Session) : Session × List Eff :=
  let roomId := s.currentRoomId.getD msg.roomId
  match s.localStream with
  | none => (s, [])
  | some st =>
    if idLt s.myUserId msg.from_ then
      let mk := makePeer msg.from_ st s
      let so := sendOffer msg.from_ roomId mk.2.1
      (so.1, mk.2.2 ++ so.2)
    else
      let mk := makePeer msg.from_ st s
      (mk.2.1, mk.2.2)

/-- Case `offer` of `handleSignal` (lines 315-366), including the glare
branch: with a pending local offer, the greater id rolls back and
answers the incoming offer, the lesser id ignores it. -/
def onOffer (msg : SignalMsg) (s : Session) : Session × List Eff :=
  let roomId := s.currentRoomId.getD msg.roomId
  match s.localStream with
  | none => (s, [])
  | some st =>
    let pre :=
      match lookupA msg.from_ s.peerConnections with
      | some pc =>
        if pc.connectionState = ConnState.closed ∨
           pc.connectionState = ConnState.failed then
          makePeer msg.from_ st s
        else (pc, s, [])
      | none => makePeer msg.from_ st s
    let pc := pre.1
    let s1 := pre.2.1
    let e1 := pre.2.2
    if pc.signalingState = SigState.haveLocalOffer ∧ ¬ idLt msg.from_ s.myUserId then
      -- glare, and the local id is not greater: ignore the incoming offer
      (s1, e1)
    else
      let rolled :=
        if pc.signalingState = SigState.haveLocalOffer then
          -- glare, local id greater: roll back the own offer
          ({ pc with signalingState := SigState.stable, localDesc := none },
           { setPC msg.from_
              (fun q => { q with signalingState := SigState.stable, localDesc := none }) s1
             with offerCreatedFor := s1.offerCreatedFor.erase msg.from_ })
        else (pc, s1)
      let pc2 := rolled.1
      let s2 := rolled.2
      if pc2.signalingState ≠ SigState.stable then (s2, e1)
      else
        match msg.sdp with
        | none => (s2, e1)
        | some d =>
          let s3 := setPC msg.from_
            (fun q => { q with remoteDesc := some d,
                               signalingState := SigState.haveRemoteOffer }) s2
          let s4 := flushCandidates msg.from_ s3
          let ans : Desc := Desc.answer s.myUserId (offerCreatorOf d)
          let s5 := setPC msg.from_
            (fun q => { q with localDesc := some ans,
                               signalingState := SigState.stable }) s4
          let e2 :=
            if s.channelOpen then
              [Eff.send ("call-room-" ++ roomId)
                { stype := "answer", from_ := s.myUserId, to_ := msg.from_,
                  roomId := roomId, sdp := some ans }]
            else []
          (s5, e1 ++ e2)

/-- Case `answer` of `handleSignal` (lines 368-383): applied only while the
link is in `have-local-offer`; otherwise ignored. -/
def onAnswer (msg : SignalMsg) (s : Session) : Session × List Eff :=
  match lookupA msg.from_ s.peerConnections with
  | some pc =>
    if pc.signalingState = SigState.haveLocalOffer then
      match msg.sdp with
      | some d =>
        let s1 := setPC msg.from_
          (fun q => { q with remoteDesc := some d,
                             signalingState := SigState.stable }) s
        (flushCandidates msg.from_ s1, [])
      | none => (s, [])
    else (s, [])
  | none => (s, [])

/-- Case `ice-candidate` of `handleSignal` (lines 385-401): applied
immediately when the link exists and already has a remote description;
otherwise queued under the sender's id, even when no link exists yet. -/
def onIceCandidate (msg : SignalMsg) (s : Session) : Session × List Eff :=
  match msg.candidate with
  | none => (s, [])
  | some c =>
    match lookupA msg.from_ s.peerConnections with
    | some pc =>
      if pc.remoteDesc ≠ none then
        (setPC msg.from_ (fun q => { q with applied := q.applied ++ [c] }) s, [])
      else
        ({ s with pendingCandidates := pushCand msg.from_ c s.pendingCandidates }, [])
    | none =>
      ({ s with pendingCandidates := pushCand msg.from_ c s.pendingCandidates }, [])

/-- Cases `call-end` / `call-reject` / `call-busy` of `handleSignal`
(lines 403-414): drop the peer; when no peers remain, run `cleanup`. -/
def onPeerGone (msg : SignalMsg) (s : Session) : Session × List Eff :=
  let dropped :=
    match lookupA msg.from_ s.peerConnections with
    | some pc =>
      ({ s with peerConnections := eraseA msg.from_ s.peerConnections,
                remoteStreams := eraseA msg.from_ s.remoteStreams },
       [Eff.closePC pc.pcId])
    | none => ({ s with remoteStreams := eraseA msg.from_ s.remoteStreams }, [])
  let s1 := dropped.1
  if s1.peerConnections = [] then
    let cl := cleanup s1
    (cl.1, dropped.2 ++ cl.2)
  else (s1, dropped.2)

/-- The signal dispatcher `handleSignal` (first revision, lines 282-416). -/
def handleSignal (msg : SignalMsg) (s : Session) : Session × List Eff :=
  if msg.to_ ≠ s.myUserId then (s, [])
  else if msg.stype = "call-accept" then onCallAccept msg s
  else if msg.stype = "participant-joined" then onParticipantJoined msg s
  else if msg.stype = "offer" then onOffer msg s
  else if msg.stype = "answer" then onAnswer msg s
  else if msg.stype = "ice-candidate" then onIceCandidate msg s
  else if msg.stype = "call-end" ∨ msg.stype = "call-reject" ∨ msg.stype = "call-busy" then
    onPeerGone msg s
  else (s, [])

/-- Operation `initiateCall` (lines 455-530): a no-op unless `idle`; otherwise set
up the session, acquire media (the outcome is the `media` argument),
subscribe the call channel (`channelOk`), multicast the invitation to
each target five times, and arm the ringing timeout. -/
def initiateCall (roomId : String) (targetIds : List String) (video : Bool)
    (media : Option MediaStream) (channelOk : Bool) (s : Session) : Session × List Eff :=
  if s.callState ≠ CallState.idle then (s, [])
  else
    let allPeers := s.myUserId :: targetIds
    let s1 := { s with
        currentRoomId := some roomId
        currentCallTargets := targetIds
        allParticipants := allPeers
        isVideoCall := video
        callState := CallState.ringing }
    match media with
    | none => cleanup s1
    | some st =>
      let s2 := { s1 with localStream := some st }
      if ¬ channelOk then
        let cl := cleanup { s2 with errorMsg := some "Failed to setup call channel" }
        (cl.1, cl.2)
      else
        let s3 := { s2 with channelOpen := true }
        let invites := targetIds.flatMap (fun t =>
          (List.replicate 5
            (Eff.send ("incoming-" ++ t)
              { stype := "call-invite", from_ := s.myUserId, to_ := t,
                roomId := roomId, isVideo := some video,
                participants := some allPeers })))
        (s3, invites)

/-- The 60s ringing timeout armed by `initiateCall` (lines 524-529). -/
def onRingTimeout (s : Session) : Session × List Eff :=
  if s.callState = CallState.ringing then cleanup s else (s, [])

/-- Operation `acceptCall` (lines 533-597): requires a pending `incomingCall`;
joins the room, sends `call-accept` to the caller and
`participant-joined` to every other invited participant. -/
def acceptCall (media : Option MediaStream) (channelOk : Bool) (s : Session) : Session × List Eff :=
  match s.incomingCall with
  | none => (s, [])
  | some inc =>
    let otherPeers := inc.participants.filter (fun p => p ≠ s.myUserId)
    let s1 := { s with
        allParticipants := inc.participants
        currentRoomId := some inc.roomId
        currentCallTargets := otherPeers
        isVideoCall := inc.isVideo
        callState := CallState.connecting
        incomingCall := none }
    match media with
    | none => cleanup s1
    | some st =>
      let s2 := { s1 with localStream := some st }
      if ¬ channelOk then
        let cl := cleanup { s2 with errorMsg := some "Failed to join call" }
        (cl.1, cl.2)
      else
        let s3 := { s2 with channelOpen := true }
        let topic := "call-room-" ++ inc.roomId
        let acceptEff :=
          [Eff.send topic
            { stype := "call-accept", from_ := s.myUserId, to_ := inc.from_,
              roomId := inc.roomId }]
        let joinEffs := (otherPeers.filter (fun p => p ≠ inc.from_)).map (fun p =>
          Eff.send topic
            { stype := "participant-joined", from_ := s.myUserId, to_ := p,
              roomId := inc.roomId })
        (s3, acceptEff ++ joinEffs)

/-- Operation `rejectCall` (lines 600-627): sends `call-reject` on the call-room
topic through a temporary channel and clears the pending invitation. -/
def rejectCall (s : Session) : Session × List Eff :=
  match s.incomingCall with
  | none => (s, [])
  | some inc =>
    ({ s with incomingCall := none },
     [Eff.send ("call-room-" ++ inc.roomId)
        { stype := "call-reject", from_ := s.myUserId, to_ := inc.from_,
          roomId := inc.roomId }])

/-- Operation `endCall` (lines 630-650): notify every current peer with
`call-end`, then `cleanup`. -/
def endCall (s : Session) : Session × List Eff :=
  let notifies :=
    s.peerConnections.flatMap (fun pv =>
      match s.currentRoomId, s.channelOpen with
      | some rid, true =>
        [Eff.send ("call-room-" ++ rid)
          { stype := "call-end", from_ := s.myUserId, to_ := pv.1, roomId := rid }]
      | _, _ => [])
  let cl := cleanup s
  (cl.1, notifies ++ cl.2)

/-- Handler `onconnectionstatechange` (lines 202-220): a peer reaching
`connected` marks the call `connected`; `failed`/`closed` drops the
peer and, when no peers remain and the call is not idle, tears the call
down. -/
def onConnChange (peerId : String) (cs : ConnState) (s : Session) : Session × List Eff :=
  match lookupA peerId s.peerConnections with
  | none => (s, [])
  | some _ =>
    let s0 := setPC peerId (fun pc => { pc with connectionState := cs }) s
    if cs = ConnState.connected then
      ({ s0 with callState := CallState.connected }, [])
    else if cs = ConnState.failed ∨ cs = ConnState.closed then
      let s1 := { s0 with
          peerConnections := eraseA peerId s0.peerConnections
          remoteStreams := eraseA peerId s0.remoteStreams }
      if s1.peerConnections = [] ∧ s1.callState ≠ CallState.idle then
        cleanup s1
      else (s1, [])
    else (s0, [])

/-- The incoming-call listener of the FIRST revision (lines 752-805):
after deduplication, a participant who is not `idle` logs "sending
busy" but sends nothing and drops the invitation. -/
def listenR1 (msg : SignalMsg) (s : Session) : Session × List Eff :=
  if msg.stype ≠ "call-invite" then (s, [])
  else if msg.to_ ≠ s.myUserId then (s, [])
  else if msg.roomId ∈ s.processedCalls then (s, [])
  else
    let s1 := { s with processedCalls := msg.roomId :: s.processedCalls }
    if s.callState ≠ CallState.idle then (s1, [])
    else
      let inc : IncomingCallData :=
        { from_ := msg.from_, roomId := msg.roomId,
          isVideo := msg.isVideo.getD true,
          participants := msg.participants.getD [msg.from_, s.myUserId] }
      ({ s1 with incomingCall := some inc }, [])

/-- The incoming-call listener of the SECOND revision (lines 1655-1749):
identical except that a busy participant actually sends `call-busy`
back to the inviter over the room's channel. -/
def listenR2 (msg : SignalMsg) (s : Session) : Session × List Eff :=
  if msg.stype ≠ "call-invite" then (s, [])
  else if msg.to_ ≠ s.myUserId then (s, [])
  else if msg.roomId ∈ s.processedCalls then (s, [])
  else
    let s1 := { s with processedCalls := msg.roomId :: s.processedCalls }
    if s.callState ≠ CallState.idle then
      (s1,
       [Eff.send ("call:" ++ msg.roomId)
          { stype := "call-busy", from_ := s.myUserId, to_ := msg.from_,
            roomId := msg.roomId }])
    else
      let inc : IncomingCallData :=
        { from_ := msg.from_, roomId := msg.roomId,
          isVideo := msg.isVideo.getD true,
          participants := msg.participants.getD [msg.from_, s.myUserId] }
      ({ s1 with incomingCall := some inc }, [])

/-- Every event the engine reacts to, for the whole-session step
function. -/
inductive Event
  | sig (m : SignalMsg)
  | invite (m : SignalMsg)
  | localInitiate (roomId : String) (targets : List String) (video : Bool)
      (media : Option MediaStream) (channelOk : Bool)
  | localAccept (media : Option MediaStream) (channelOk : Bool)
  | localReject
  | localEnd
  | connChange (p : String) (cs : ConnState)
  | ringTimeout
deriving DecidableEq, Repr

/-- One serialized event against the session state machine (§5: all
transitions of a session are serialized). -/
def step (s : Session) (e : Event) : Session × List Eff :=
  match e with
  | Event.sig m => handleSignal m s
  | Event.invite m => listenR1 m s
  | Event.localInitiate roomId targets video media channelOk =>
      initiateCall roomId targets video media channelOk s
  | Event.localAccept media channelOk => acceptCall media channelOk s
  | Event.localReject => rejectCall s
  | Event.localEnd => endCall s
  | Event.connChange p cs => onConnChange p cs s
  | Event.ringTimeout => onRingTimeout s

/-- Run a trace of events, discarding effects. -/
def run (s : Session) : List Event → Session
  | [] => s
  | e :: es => run (step s e).1 es

/-- A session holding a local stream, about to open links. -/
def c6Session : Session :=
  { initSession "a" with localStream := some { streamId := 0, tracks := [1, 2] } }

def c6Stream : MediaStream := { streamId := 0, tracks := [1, 2] }

/-- The concrete busy participant of C3: mid-call (`ringing`) in room
`room1`. -/
def busySession : Session :=
  { initSession "me" with
      callState := CallState.ringing
      currentRoomId := some "room1"
      channelOpen := true
      currentCallTargets := ["bob"] }

/-- The invitation of C3: a `call-invite` from `alice` for a different
room. -/
def busyInvite : SignalMsg :=
  { stype := "call-invite", from_ := "alice", to_ := "me", roomId := "room2",
    isVideo := some true, participants := some ["alice", "me"] }

def isStopEff : Eff → Bool
  | Eff.stopTrack _ => true
  | _ => false

/-- An `ice-candidate` message from `p` to `me` in room `rid`. -/
def iceMsg (p me rid : String) (c : Nat) : SignalMsg :=
  { stype := "ice-candidate", from_ := p, to_ := me, roomId := rid, candidate := some c }

/-- Deliver a burst of ICE candidates from `p`, in arrival order. -/
def arrive (p rid : String) (cs : List Nat) (s : Session) : Session :=
  cs.foldl (fun st c => (handleSignal (iceMsg p st.myUserId rid c) st).1) s

def c4pc : PC :=
  { pcId := 0, signalingState := SigState.haveLocalOffer,
    localDesc := some (Desc.offer "a"), tracks := [1] }

def c4Session : Session :=
  { initSession "a" with
      callState := CallState.connecting
      localStream := some { streamId := 0, tracks := [1] }
      currentRoomId := some "r"
      channelOpen := true
      peerConnections := [("p", c4pc)]
      offerCreatedFor := ["p"] }

/-- The pre-glare state of participant `me` who has just created and
sent an offer to `other` (via `makePeer` followed by `sendOffer`) in
room `r`. -/
def glareSess (me other : String) : Session :=
  let s0 : Session :=
    { initSession me with
        localStream := some { streamId := 0, tracks := [1] }
        channelOpen := true
        currentRoomId := some "r"
        callState := CallState.connecting }
  (sendOffer other "r" (makePeer other { streamId := 0, tracks := [1] } s0).2.1).1

/-- The offer `a` sent to `b` when it created its crossed offer. -/
def glareOffer (a b : String) : SignalMsg :=
  { stype := "offer", from_ := a, to_ := b, roomId := "r", sdp := some (Desc.offer a) }

/-- The answer `b` sends to `a` after winning rollback. -/
def glareAnswer (b a : String) : SignalMsg :=
  { stype := "answer", from_ := b, to_ := a, roomId := "r", sdp := some (Desc.answer b a) }

/-- The forward order of the call state machine (§4.4). -/
def rank : CallState → Nat
  | CallState.idle => 0
  | CallState.ringing => 1
  | CallState.connecting => 2
  | CallState.connected => 3
  | CallState.ended => 4

/-- Events that (re-)enter `connecting`: a received `call-accept` or a
local accept of a pending invitation. -/
def isAcceptEvent : Event → Bool
  | Event.sig m => m.stype == "call-accept"
  | Event.localAccept _ _ => true
  | _ => false

def c8Stream : MediaStream := { streamId := 0, tracks := [1] }

/-- The reachable trace of C8's counterexample: `a` calls `b` and `c`,
`b` accepts and its link connects (session `connected`), then `c`'s
late `call-accept` arrives. -/
def c8trace : List Event :=
  [Event.localInitiate "r" ["b", "c"] true (some c8Stream) true,
   Event.sig { stype := "call-accept", from_ := "b", to_ := "a", roomId := "r" },
   Event.connChange "b" ConnState.connected]

def c8Pre : Session := run (initSession "a") c8trace

def c8Accept : SignalMsg :=
  { stype := "call-accept", from_ := "c", to_ := "a", roomId := "r" }

/-! ### Theorems -/

theorem lookupA_insertA_self {α : Type} (k : String) (v : α) (l : List (String × α)) :
    lookupA k (insertA k v l) = some v := by
  induction l with
  | nil => simp [insertA, lookupA]
  | cons hd tl ih =>
    by_cases h : hd.1 = k
    · simp [insertA, lookupA, h]
    · simp [insertA, lookupA, h, ih]

theorem lookupA_insertA_ne {α : Type} (k k' : String) (v : α) (l : List (String × α))
    (h : k' ≠ k) : lookupA k (insertA k' v l) = lookupA k l := by
  induction l with
  | nil => simp [insertA, lookupA, h]
  | cons hd tl ih =>
    by_cases h2 : hd.1 = k'
    · simp [insertA, lookupA, h2, h]
    · simp [insertA, lookupA, h2, ih]

theorem lookupA_updateA_self {α : Type} (k : String) (f : α → α) (l : List (String × α)) :
    lookupA k (updateA k f l) = (lookupA k l).map f := by
  induction l with
  | nil => simp [updateA, lookupA]
  | cons hd tl ih =>
    by_cases h : hd.1 = k
    · simp [updateA, lookupA, h]
    · simp [updateA, lookupA, h, ih]

theorem lookupA_updateA_ne {α : Type} (k k' : String) (f : α → α) (l : List (String × α))
    (h : k' ≠ k) : lookupA k (updateA k' f l) = lookupA k l := by
  induction l with
  | nil => simp [updateA, lookupA]
  | cons hd tl ih =>
    by_cases h2 : hd.1 = k'
    · simp [updateA, lookupA, h2, h, Ne.symm h]
    · simp [updateA, lookupA, h2, ih]

theorem insertA_insertA {α : Type} (k : String) (v w : α) (l : List (String × α)) :
    insertA k v (insertA k w l) = insertA k v l := by
  induction l with
  | nil => simp [insertA]
  | cons hd tl ih =>
    by_cases h : hd.1 = k
    · simp [insertA, h]
    · simp [insertA, h, ih]

theorem eraseA_insertA_of_none {α : Type} (k : String) (v : α) (l : List (String × α))
    (h : lookupA k l = none) : eraseA k (insertA k v l) = l := by
  induction l with
  | nil => simp [insertA, eraseA]
  | cons hd tl ih =>
    by_cases h2 : hd.1 = k
    · simp [lookupA, h2] at h
    · simp [lookupA, h2] at h
      simp [insertA, eraseA, h2, ih h]

theorem lookupA_eraseA_of_none {α : Type} (k k' : String) (l : List (String × α))
    (h : lookupA k l = none) : lookupA k (eraseA k' l) = none := by
  induction l with
  | nil => simp [eraseA, lookupA]
  | cons hd tl ih =>
    by_cases h2 : hd.1 = k
    · simp [lookupA, h2] at h
    · simp [lookupA, h2] at h
      by_cases h3 : hd.1 = k'
      · simp [eraseA, h3, h]
      · simp [eraseA, h3, lookupA, h2, ih h]

/-- C9: calling `initiateCall` while the session state is not `idle`
returns immediately: no session field changes and no message is sent. -/
theorem initiateCall_noop_when_not_idle (s : Session) (roomId : String)
    (targets : List String) (video : Bool) (media : Option MediaStream)
    (channelOk : Bool) (h : s.callState ≠ CallState.idle) :
    initiateCall roomId targets video media channelOk s = (s, []) := by
  simp [initiateCall, h]

/-- Witness for C9 at a concrete busy session. -/
theorem initiateCall_noop_when_not_idle_witness :
    initiateCall "room9" ["b"] true none false
        { initSession "a" with callState := CallState.ringing } =
      ({ initSession "a" with callState := CallState.ringing }, []) :=
  initiateCall_noop_when_not_idle _ "room9" ["b"] true none false (by decide)

/-- C10: an `ice-candidate` signal addressed to the local participant
from a peer with no peer connection at all is not dropped: it is
appended to that peer's pending queue, and nothing else changes. -/
theorem ice_candidate_queued_without_link (s : Session) (msg : SignalMsg) (c : Nat)
    (hty : msg.stype = "ice-candidate") (hto : msg.to_ = s.myUserId)
    (hc : msg.candidate = some c)
    (hpc : lookupA msg.from_ s.peerConnections = none) :
    handleSignal msg s =
      ({ s with pendingCandidates := pushCand msg.from_ c s.pendingCandidates }, []) := by
  simp [handleSignal, onIceCandidate, hty, hto, hc, hpc]

/-- Witness for C10: candidate 7 from unknown peer `p` is queued. -/
theorem ice_candidate_queued_without_link_witness :
    handleSignal { stype := "ice-candidate", from_ := "p", to_ := "a",
                   roomId := "r", candidate := some 7 } (initSession "a") =
      ({ initSession "a" with pendingCandidates := [("p", [7])] }, []) := by
  have h := ice_candidate_queued_without_link (initSession "a")
    { stype := "ice-candidate", from_ := "p", to_ := "a", roomId := "r", candidate := some 7 }
    7 rfl rfl rfl rfl
  simpa [pushCand, lookupA, insertA, initSession] using h

/-- C5: an incoming `answer` is applied to the peer's link only while
that link is in `have-local-offer`; with no link, or in any other
signaling state, the handler leaves the whole session unchanged and
emits nothing (and, being a total function, never raises). -/
theorem answer_only_when_awaiting (s : Session) (msg : SignalMsg)
    (hty : msg.stype = "answer") (hto : msg.to_ = s.myUserId) :
    (lookupA msg.from_ s.peerConnections = none → handleSignal msg s = (s, [])) ∧
    (∀ pc, lookupA msg.from_ s.peerConnections = some pc →
      pc.signalingState ≠ SigState.haveLocalOffer → handleSignal msg s = (s, [])) ∧
    (∀ pc d, lookupA msg.from_ s.peerConnections = some pc →
      pc.signalingState = SigState.haveLocalOffer → msg.sdp = some d →
      handleSignal msg s =
        (flushCandidates msg.from_
          (setPC msg.from_
            (fun q => { q with remoteDesc := some d,
                               signalingState := SigState.stable }) s), [])) := by
  refine ⟨fun hnone => ?_, fun pc hpc hstate => ?_, fun pc d hpc hstate hd => ?_⟩
  · simp [handleSignal, onAnswer, hty, hto, hnone]
  · simp [handleSignal, onAnswer, hty, hto, hpc, hstate]
  · simp [handleSignal, onAnswer, hty, hto, hpc, hstate, hd]

/-- Witness for C5: a stale answer for a link already `stable` is
ignored. -/
theorem answer_only_when_awaiting_witness :
    handleSignal { stype := "answer", from_ := "b", to_ := "a", roomId := "r",
                   sdp := some (Desc.answer "b" "a") }
        { initSession "a" with peerConnections := [("b", { pcId := 0 })] } =
      ({ initSession "a" with peerConnections := [("b", { pcId := 0 })] }, []) :=
  (answer_only_when_awaiting
    { initSession "a" with peerConnections := [("b", { pcId := 0 })] }
    { stype := "answer", from_ := "b", to_ := "a", roomId := "r",
      sdp := some (Desc.answer "b" "a") } rfl rfl).2.1
    { pcId := 0 } (by simp [lookupA]) (by decide)

/-- C6 (code bug): two successive `makePeer` calls for the same peer
with no intervening failure do NOT return the same link: the first link
is still in `connectionState` `new`, which `makePeer` refuses to reuse
(it reuses only `connected`/`connecting`), so the second call closes
the first link and returns a fresh one — despite the code's own comment
"Close existing if broken".  The sibling revision's
`createPeerConnection` (reuse unless `closed`/`failed`) does return the
same link both times. -/
theorem makePeer_replaces_new_link :
    (makePeer "bob" c6Stream c6Session).1.pcId = 0 ∧
    (makePeer "bob" c6Stream (makePeer "bob" c6Stream c6Session).2.1).1.pcId = 1 ∧
    (makePeer "bob" c6Stream (makePeer "bob" c6Stream c6Session).2.1).2.2 =
      [Eff.closePC 0] ∧
    (createPeerConnection "bob" c6Stream
        (createPeerConnection "bob" c6Stream c6Session).2.1).1 =
      (createPeerConnection "bob" c6Stream c6Session).1 := by
  decide

/-- C3 (code bug): on receiving a `call-invite` for a different room
while not `idle`, the FIRST revision's listener (lines 770-792) logs
"sending busy" but sends nothing at all — the invite is silently
dropped; the SECOND revision's listener (lines 1695-1721) does send
`call-busy` back to the inviter.  Both leave the session state (call
state, room, targets, links, streams, pending invitation) unchanged;
only the short-lived dedup set records the room id. -/
theorem busy_reply_divergence :
    (listenR1 busyInvite busySession).2 = [] ∧
    (listenR1 busyInvite busySession).1 =
      { busySession with processedCalls := ["room2"] } ∧
    (listenR2 busyInvite busySession).2 =
      [Eff.send "call:room2"
        { stype := "call-busy", from_ := "me", to_ := "alice", roomId := "room2" }] ∧
    (listenR2 busyInvite busySession).1 =
      { busySession with processedCalls := ["room2"] } := by
  decide

theorem isStopEff_stopTrack (t : Nat) : isStopEff (Eff.stopTrack t) = true := rfl

theorem isStopEff_closePC (n : Nat) : isStopEff (Eff.closePC n) = false := rfl

theorem isStopEff_send (top : String) (m : SignalMsg) : isStopEff (Eff.send top m) = false := rfl

theorem isStopEff_removeChannel (top : String) : isStopEff (Eff.removeChannel top) = false := rfl

/-- C7: `endCall` is idempotent — a second call (equivalently, a call
after the session is already back at `idle`) changes nothing and emits
no effect; and one teardown stops exactly the tracks of the local
stream, once each, regardless of how many peer links existed. -/
theorem endCall_idempotent (s : Session) :
    endCall (endCall s).1 = ((endCall s).1, []) ∧
    (endCall s).2.filter isStopEff =
      (match s.localStream with
       | some st => st.tracks.map Eff.stopTrack
       | none => []) := by
  constructor
  · simp [endCall, cleanup]
  · simp only [endCall, cleanup]
    cases hl : s.localStream <;> cases hc : s.channelOpen <;> cases hr : s.currentRoomId <;>
      simp [List.filter_append, List.filter_flatMap, List.filter_map,
            Function.comp_def, isStopEff_stopTrack, isStopEff_closePC, isStopEff_send,
            isStopEff_removeChannel, isStopEff]

theorem charsLt_asymm : ∀ xs ys, charsLt xs ys = true → charsLt ys xs = false := by
  intro xs
  induction xs with
  | nil =>
    intro ys h
    cases ys <;> simp [charsLt] at h ⊢
  | cons c cs ih =>
    intro ys h
    cases ys with
    | nil => simp [charsLt] at h
    | cons d ds =>
      by_cases hcd : c.toNat < d.toNat
      · have hdc : ¬ d.toNat < c.toNat := Nat.lt_asymm hcd
        simp [charsLt, hcd, hdc]
      · by_cases hdc : d.toNat < c.toNat
        · simp [charsLt, hcd, hdc] at h
        · simp [charsLt, hcd, hdc] at h ⊢
          exact ih ds h

theorem idLt_asymm (x y : String) (h : idLt x y = true) : idLt y x = false :=
  charsLt_asymm _ _ h

theorem lookupA_setPC_self (p : String) (f : PC → PC) (s : Session) :
    lookupA p (setPC p f s).peerConnections = (lookupA p s.peerConnections).map f := by
  simp [setPC, lookupA_updateA_self]

theorem lookupA_flushCandidates (p : String) (s : Session) (pc : PC)
    (h : lookupA p s.peerConnections = some pc) :
    ∃ ap, lookupA p (flushCandidates p s).peerConnections =
      some { pc with applied := ap } := by
  unfold flushCandidates
  cases hq : lookupA p s.pendingCandidates with
  | none => exact ⟨pc.applied, by simp [h]⟩
  | some q =>
    by_cases hqe : q = []
    · exact ⟨pc.applied, by simp [hqe, h]⟩
    · refine ⟨pc.applied ++ q, ?_⟩
      simp [hqe, setPC, lookupA_updateA_self, h]

theorem flushCandidates_offerCreatedFor (p : String) (s : Session) :
    (flushCandidates p s).offerCreatedFor = s.offerCreatedFor := by
  unfold flushCandidates
  cases hq : lookupA p s.pendingCandidates with
  | none => rfl
  | some q =>
    by_cases hqe : q = [] <;> simp [hqe, setPC]

/-- C1: glare resolution in `handleSignal` case `offer`.  When the
local link to the sender already carries a pending local offer and a
remote offer arrives: if the local id is greater, the local side rolls
back its own offer (clearing its idempotency claim) and answers the
incoming offer; if the local id is lesser, the incoming offer is
ignored and the whole session is left exactly as it was, so exactly
one side of any pair answers. -/
theorem glare_offer_resolution (s : Session) (msg : SignalMsg) (pc : PC)
    (st : MediaStream) (d : Desc)
    (hty : msg.stype = "offer") (hto : msg.to_ = s.myUserId)
    (hst : s.localStream = some st)
    (hpc : lookupA msg.from_ s.peerConnections = some pc)
    (hal1 : pc.connectionState ≠ ConnState.closed)
    (hal2 : pc.connectionState ≠ ConnState.failed)
    (hglare : pc.signalingState = SigState.haveLocalOffer)
    (hd : msg.sdp = some d) :
    (idLt s.myUserId msg.from_ = true → handleSignal msg s = (s, [])) ∧
    (idLt msg.from_ s.myUserId = true →
      (∃ pc2, lookupA msg.from_ (handleSignal msg s).1.peerConnections = some pc2 ∧
        pc2.signalingState = SigState.stable ∧
        pc2.remoteDesc = some d ∧
        pc2.localDesc = some (Desc.answer s.myUserId (offerCreatorOf d))) ∧
      (handleSignal msg s).1.offerCreatedFor = s.offerCreatedFor.erase msg.from_ ∧
      (s.channelOpen = true →
        (handleSignal msg s).2 =
          [Eff.send ("call-room-" ++ s.currentRoomId.getD msg.roomId)
            { stype := "answer", from_ := s.myUserId, to_ := msg.from_,
              roomId := s.currentRoomId.getD msg.roomId,
              sdp := some (Desc.answer s.myUserId (offerCreatorOf d)) }])) := by
  constructor
  · intro hlt
    have hnlt : idLt msg.from_ s.myUserId = false := idLt_asymm _ _ hlt
    simp [handleSignal, hty, hto, onOffer, hst, hpc, hal1, hal2, hglare, hnlt]
  · intro hgt
    have hred : handleSignal msg s =
        (setPC msg.from_
          (fun q => { q with
              localDesc := some (Desc.answer s.myUserId (offerCreatorOf d)),
              signalingState := SigState.stable })
          (flushCandidates msg.from_
            (setPC msg.from_
              (fun q => { q with remoteDesc := some d,
                                 signalingState := SigState.haveRemoteOffer })
              { setPC msg.from_
                  (fun q => { q with signalingState := SigState.stable,
                                     localDesc := none }) s
                with offerCreatedFor := s.offerCreatedFor.erase msg.from_ })),
         if s.channelOpen then
           [Eff.send ("call-room-" ++ s.currentRoomId.getD msg.roomId)
             { stype := "answer", from_ := s.myUserId, to_ := msg.from_,
               roomId := s.currentRoomId.getD msg.roomId,
               sdp := some (Desc.answer s.myUserId (offerCreatorOf d)) }]
         else []) := by
      simp [handleSignal, hty, hto, onOffer, hst, hpc, hal1, hal2, hglare, hgt, hd]
    rw [hred]
    refine ⟨?_, ?_, ?_⟩
    · have hmid : lookupA msg.from_
          ((setPC msg.from_
            (fun q => { q with remoteDesc := some d,
                               signalingState := SigState.haveRemoteOffer })
            { setPC msg.from_
                (fun q => { q with signalingState := SigState.stable,
                                   localDesc := none }) s
              with offerCreatedFor := s.offerCreatedFor.erase msg.from_ })).peerConnections =
          some { pc with signalingState := SigState.haveRemoteOffer,
                         localDesc := none, remoteDesc := some d } := by
        simp only [lookupA_setPC_self, hpc, Option.map_some']
      obtain ⟨ap, hflush⟩ := lookupA_flushCandidates msg.from_ _ _ hmid
      simp only [lookupA_setPC_self, hflush, Option.map_some']
      exact ⟨_, rfl, rfl, rfl, rfl⟩
    · simp [setPC, flushCandidates_offerCreatedFor]
    · intro hco
      simp [hco]

/-- Witness for C1: concrete glare between ids `"a" < "b"`; the link
state has a pending local offer on both sides. -/
theorem glare_offer_resolution_witness :
    (let sB : Session :=
      { initSession "b" with
          localStream := some { streamId := 0, tracks := [1] }
          channelOpen := true
          currentRoomId := some "r"
          callState := CallState.connecting
          peerConnections :=
            [("a", { pcId := 0, signalingState := SigState.haveLocalOffer,
                     localDesc := some (Desc.offer "b"), tracks := [1] })]
          offerCreatedFor := ["a"] }
     let msg : SignalMsg :=
      { stype := "offer", from_ := "a", to_ := "b", roomId := "r",
        sdp := some (Desc.offer "a") }
     (idLt "b" "a" = true → handleSignal msg sB = (sB, [])) ∧
     (idLt "a" "b" = true →
      (∃ pc2, lookupA "a" (handleSignal msg sB).1.peerConnections = some pc2 ∧
        pc2.signalingState = SigState.stable ∧
        pc2.remoteDesc = some (Desc.offer "a") ∧
        pc2.localDesc = some (Desc.answer "b" (offerCreatorOf (Desc.offer "a")))) ∧
      (handleSignal msg sB).1.offerCreatedFor = (["a"] : List String).erase "a" ∧
      (true = true →
        (handleSignal msg sB).2 =
          [Eff.send ("call-room-" ++ (some "r" : Option String).getD "r")
            { stype := "answer", from_ := "b", to_ := "a",
              roomId := (some "r" : Option String).getD "r",
              sdp := some (Desc.answer "b" (offerCreatorOf (Desc.offer "a"))) }]))) := by
  exact glare_offer_resolution
    { initSession "b" with
        localStream := some { streamId := 0, tracks := [1] }
        channelOpen := true
        currentRoomId := some "r"
        callState := CallState.connecting
        peerConnections :=
          [("a", { pcId := 0, signalingState := SigState.haveLocalOffer,
                   localDesc := some (Desc.offer "b"), tracks := [1] })]
        offerCreatedFor := ["a"] }
    { stype := "offer", from_ := "a", to_ := "b", roomId := "r",
      sdp := some (Desc.offer "a") }
    { pcId := 0, signalingState := SigState.haveLocalOffer,
      localDesc := some (Desc.offer "b"), tracks := [1] }
    { streamId := 0, tracks := [1] } (Desc.offer "a")
    rfl rfl rfl (by decide) (by decide) (by decide) rfl rfl

theorem insertA_lookup_self {α : Type} (k : String) (v : α) (l : List (String × α))
    (h : lookupA k l = some v) : insertA k v l = l := by
  induction l with
  | nil => simp [lookupA] at h
  | cons hd tl ih =>
    obtain ⟨k1, v1⟩ := hd
    by_cases h2 : k1 = k
    · subst h2
      simp [lookupA] at h
      subst h
      simp [insertA]
    · simp [lookupA, h2] at h
      simp [insertA, h2, ih h]

theorem ice_step_queued (p rid : String) (c : Nat) (s : Session) (pc : PC)
    (hpc : lookupA p s.peerConnections = some pc) (hrd : pc.remoteDesc = none) :
    handleSignal (iceMsg p s.myUserId rid c) s =
      ({ s with pendingCandidates := pushCand p c s.pendingCandidates }, []) := by
  simp [handleSignal, onIceCandidate, iceMsg, hpc, hrd]

theorem arrive_some (p rid : String) (cs : List Nat) :
    ∀ (s : Session) (pc : PC) (q0 : List Nat),
      lookupA p s.peerConnections = some pc → pc.remoteDesc = none →
      lookupA p s.pendingCandidates = some q0 →
      arrive p rid cs s =
        { s with pendingCandidates := insertA p (q0 ++ cs) s.pendingCandidates } := by
  induction cs with
  | nil =>
    intro s pc q0 hpc hrd hq
    simp [arrive, insertA_lookup_self p q0 _ hq]
  | cons c cs ih =>
    intro s pc q0 hpc hrd hq
    have hstep := ice_step_queued p rid c s pc hpc hrd
    have harr : arrive p rid (c :: cs) s =
        arrive p rid cs ({ s with pendingCandidates := pushCand p c s.pendingCandidates }) := by
      simp [arrive, hstep]
    rw [harr]
    have hq1 : lookupA p (pushCand p c s.pendingCandidates) = some (q0 ++ [c]) := by
      simp [pushCand, hq, lookupA_insertA_self]
    have := ih { s with pendingCandidates := pushCand p c s.pendingCandidates } pc (q0 ++ [c])
      hpc hrd hq1
    rw [this]
    simp [pushCand, hq, insertA_insertA]

theorem flushCandidates_lookup_known (p : String) (s : Session) (pc : PC) (q : List Nat)
    (hpc : lookupA p s.peerConnections = some pc)
    (hq : lookupA p s.pendingCandidates = some q) (hne : q ≠ []) :
    lookupA p (flushCandidates p s).peerConnections =
      some { pc with applied := pc.applied ++ q } ∧
    (flushCandidates p s).pendingCandidates = eraseA p s.pendingCandidates := by
  unfold flushCandidates
  simp [hq, hne, setPC, lookupA_updateA_self, hpc]

theorem flushCandidates_myUserId (p : String) (s : Session) :
    (flushCandidates p s).myUserId = s.myUserId := by
  unfold flushCandidates
  cases hq : lookupA p s.pendingCandidates with
  | none => rfl
  | some q => by_cases hqe : q = [] <;> simp [hqe, setPC]

/-- C4: candidates from peer `p` that arrive before `p`'s remote
description is set are appended, one by one, to `p`'s pending queue in
arrival order; the signal that sets the remote description immediately
applies the whole queue in FIFO order to the link and clears the queue;
a candidate arriving afterwards is applied directly and the queue stays
empty, so no candidate is ever applied twice. -/
theorem candidate_queue_fifo (s : Session) (p rid : String) (c0 : Nat) (cs : List Nat)
    (pc : PC) (d : Desc)
    (hpc : lookupA p s.peerConnections = some pc)
    (hrd : pc.remoteDesc = none)
    (hq : lookupA p s.pendingCandidates = none)
    (hsig : pc.signalingState = SigState.haveLocalOffer) :
    (arrive p rid (c0 :: cs) s =
      { s with pendingCandidates := insertA p (c0 :: cs) s.pendingCandidates }) ∧
    (let ans : SignalMsg :=
      { stype := "answer", from_ := p, to_ := s.myUserId, roomId := rid, sdp := some d }
     let s2 := (handleSignal ans (arrive p rid (c0 :: cs) s)).1
     lookupA p s2.peerConnections =
        some { pc with remoteDesc := some d, signalingState := SigState.stable,
                       applied := pc.applied ++ (c0 :: cs) } ∧
     lookupA p s2.pendingCandidates = none ∧
     ∀ c' : Nat,
       lookupA p ((handleSignal (iceMsg p s.myUserId rid c') s2).1).peerConnections =
          some { pc with remoteDesc := some d, signalingState := SigState.stable,
                         applied := (pc.applied ++ (c0 :: cs)) ++ [c'] } ∧
       lookupA p ((handleSignal (iceMsg p s.myUserId rid c') s2).1).pendingCandidates =
          none) := by
  have ha : arrive p rid (c0 :: cs) s =
      { s with pendingCandidates := insertA p (c0 :: cs) s.pendingCandidates } := by
    have hstep := ice_step_queued p rid c0 s pc hpc hrd
    have harr : arrive p rid (c0 :: cs) s =
        arrive p rid cs { s with pendingCandidates := pushCand p c0 s.pendingCandidates } := by
      simp [arrive, hstep]
    rw [harr]
    rw [arrive_some p rid cs
      { s with pendingCandidates := pushCand p c0 s.pendingCandidates } pc [c0] hpc hrd
      (by simp [pushCand, hq, lookupA_insertA_self])]
    simp [pushCand, hq, insertA_insertA]
  refine ⟨ha, ?_⟩
  have hb : handleSignal
      { stype := "answer", from_ := p, to_ := s.myUserId, roomId := rid, sdp := some d }
      { s with pendingCandidates := insertA p (c0 :: cs) s.pendingCandidates } =
      (flushCandidates p
        (setPC p (fun q => { q with remoteDesc := some d,
                                    signalingState := SigState.stable })
          { s with pendingCandidates := insertA p (c0 :: cs) s.pendingCandidates }), []) := by
    simp [handleSignal, onAnswer, hpc, hsig]
  simp only [ha, hb]
  have hpc1 : lookupA p
      (setPC p (fun q => { q with remoteDesc := some d,
                                  signalingState := SigState.stable })
        { s with pendingCandidates := insertA p (c0 :: cs) s.pendingCandidates }).peerConnections =
      some { pc with remoteDesc := some d, signalingState := SigState.stable } := by
    simp only [lookupA_setPC_self]
    simp [hpc]
  have hq1 : lookupA p
      (setPC p (fun q => { q with remoteDesc := some d,
                                  signalingState := SigState.stable })
        { s with pendingCandidates := insertA p (c0 :: cs) s.pendingCandidates }).pendingCandidates =
      some (c0 :: cs) := by
    simp [setPC, lookupA_insertA_self]
  obtain ⟨hfpc, hfpend⟩ := flushCandidates_lookup_known p _ _ _ hpc1 hq1 (by simp)
  have hq2 : lookupA p
      (flushCandidates p
        (setPC p (fun q => { q with remoteDesc := some d,
                                    signalingState := SigState.stable })
          { s with pendingCandidates := insertA p (c0 :: cs) s.pendingCandidates })).pendingCandidates =
      none := by
    rw [hfpend]
    simp only [setPC]
    rw [eraseA_insertA_of_none p _ _ hq]
    exact hq
  refine ⟨by simpa using hfpc, hq2, ?_⟩
  intro c'
  have hme : (flushCandidates p
      (setPC p (fun q => { q with remoteDesc := some d,
                                  signalingState := SigState.stable })
        { s with pendingCandidates := insertA p (c0 :: cs) s.pendingCandidates })).myUserId =
      s.myUserId := by
    rw [flushCandidates_myUserId]
    simp [setPC]
  have hc : handleSignal (iceMsg p s.myUserId rid c')
      (flushCandidates p
        (setPC p (fun q => { q with remoteDesc := some d,
                                    signalingState := SigState.stable })
          { s with pendingCandidates := insertA p (c0 :: cs) s.pendingCandidates })) =
      (setPC p (fun q => { q with applied := q.applied ++ [c'] })
        (flushCandidates p
          (setPC p (fun q => { q with remoteDesc := some d,
                                      signalingState := SigState.stable })
            { s with pendingCandidates := insertA p (c0 :: cs) s.pendingCandidates })), []) := by
    simp [handleSignal, onIceCandidate, iceMsg, hme, hfpc]
  rw [hc]
  constructor
  · simp only [lookupA_setPC_self, hfpc, Option.map_some']
  · simp only [setPC]
    exact hq2

/-- Witness for C4: candidates 1 and 2 from peer `p` arrive early, are
queued in order, and are applied in order by the answer; candidate 3
arriving afterwards is applied directly. -/
theorem candidate_queue_fifo_witness :
    (arrive "p" "r" (1 :: [2]) c4Session =
      { c4Session with
          pendingCandidates := insertA "p" (1 :: [2]) c4Session.pendingCandidates }) ∧
    (let ans : SignalMsg :=
      { stype := "answer", from_ := "p", to_ := "a", roomId := "r",
        sdp := some (Desc.offer "p") }
     let s2 := (handleSignal ans (arrive "p" "r" (1 :: [2]) c4Session)).1
     lookupA "p" s2.peerConnections =
        some { c4pc with remoteDesc := some (Desc.offer "p"),
                         signalingState := SigState.stable,
                         applied := c4pc.applied ++ (1 :: [2]) } ∧
     lookupA "p" s2.pendingCandidates = none ∧
     ∀ c' : Nat,
       lookupA "p" ((handleSignal (iceMsg "p" "a" "r" c') s2).1).peerConnections =
          some { c4pc with remoteDesc := some (Desc.offer "p"),
                           signalingState := SigState.stable,
                           applied := (c4pc.applied ++ (1 :: [2])) ++ [c'] } ∧
       lookupA "p" ((handleSignal (iceMsg "p" "a" "r" c') s2).1).pendingCandidates =
          none) := by
  have h := candidate_queue_fifo c4Session "p" "r" 1 [2] c4pc (Desc.offer "p")
    (by decide) (by decide) (by decide) (by decide)
  exact h

/-- C2 counterexample: for `"a" < "b"` with crossed offers, it is NOT
B's offer that prevails: A ignores B's offer outright, B rolls its own
offer back and answers A's offer, and the unique negotiated pair on
both sides is A's offer together with B's answer — the prevailing
offer's creator is `"a"`, not `"b"`. -/
theorem glare_winner_counterexample :
    (handleSignal (glareOffer "b" "a") (glareSess "a" "b") = (glareSess "a" "b", [])) ∧
    ((handleSignal (glareOffer "a" "b") (glareSess "b" "a")).2 =
      [Eff.send "call-room-r" (glareAnswer "b" "a")]) ∧
    ((lookupA "a" (handleSignal (glareOffer "a" "b") (glareSess "b" "a")).1.peerConnections).map
        (fun pc => (pc.signalingState, pc.remoteDesc, pc.localDesc)) =
      some (SigState.stable, some (Desc.offer "a"), some (Desc.answer "b" "a"))) ∧
    ((lookupA "b" ((handleSignal (glareAnswer "b" "a")
        ((handleSignal (glareOffer "b" "a") (glareSess "a" "b")).1)).1).peerConnections).map
        (fun pc => (pc.signalingState, pc.localDesc, pc.remoteDesc)) =
      some (SigState.stable, some (Desc.offer "a"), some (Desc.answer "b" "a"))) ∧
    offerCreatorOf (Desc.offer "a") ≠ "b" := by
  decide

/-- C2 amended: for crossed offers between participants `a < b` (id
order), exactly one negotiated pair results and it is the LOWER id's
offer that prevails: `a` ignores `b`'s crossed offer and keeps its own,
`b` rolls its own offer back and answers `a`'s offer, and after `a`
applies that answer both links sit at the unique stable pair (a's
offer, b's answer).  The exchange is a fixed sequence of pure steps, so
re-running the scenario yields the same outcome. -/
theorem glare_lower_id_offer_prevails (a b : String) (hab : idLt a b = true) :
    (handleSignal (glareOffer b a) (glareSess a b) = (glareSess a b, [])) ∧
    ((handleSignal (glareOffer a b) (glareSess b a)).2 =
      [Eff.send ("call-room-" ++ "r") (glareAnswer b a)]) ∧
    ((lookupA a (handleSignal (glareOffer a b) (glareSess b a)).1.peerConnections).map
        (fun pc => (pc.signalingState, pc.remoteDesc, pc.localDesc)) =
      some (SigState.stable, some (Desc.offer a), some (Desc.answer b a))) ∧
    ((lookupA b ((handleSignal (glareAnswer b a)
        ((handleSignal (glareOffer b a) (glareSess a b)).1)).1).peerConnections).map
        (fun pc => (pc.signalingState, pc.localDesc, pc.remoteDesc)) =
      some (SigState.stable, some (Desc.offer a), some (Desc.answer b a))) := by
  have hba : idLt b a = false := idLt_asymm a b hab
  have hignore : handleSignal (glareOffer b a) (glareSess a b) = (glareSess a b, []) := by
    simp [handleSignal, glareOffer, onOffer, glareSess, makePeer, sendOffer, setPC,
          initSession, lookupA, insertA, updateA, hba]
  refine ⟨hignore, ?_, ?_, ?_⟩
  · simp [handleSignal, glareOffer, glareAnswer, onOffer, glareSess, makePeer, sendOffer,
          setPC, initSession, lookupA, insertA, updateA, flushCandidates, offerCreatorOf,
          hab]
  · simp [handleSignal, glareOffer, onOffer, glareSess, makePeer, sendOffer,
          setPC, initSession, lookupA, insertA, updateA, flushCandidates, offerCreatorOf,
          hab]
  · rw [hignore]
    simp [handleSignal, glareAnswer, onAnswer, glareSess, makePeer, sendOffer,
          setPC, initSession, lookupA, insertA, updateA, flushCandidates]

/-- Witness for the amended C2 at ids `"a" < "b"`. -/
theorem glare_lower_id_offer_prevails_witness :
    idLt "a" "b" = true ∧
    ((handleSignal (glareOffer "b" "a") (glareSess "a" "b") = (glareSess "a" "b", [])) ∧
     ((handleSignal (glareOffer "a" "b") (glareSess "b" "a")).2 =
       [Eff.send ("call-room-" ++ "r") (glareAnswer "b" "a")]) ∧
     ((lookupA "a"
         (handleSignal (glareOffer "a" "b") (glareSess "b" "a")).1.peerConnections).map
         (fun pc => (pc.signalingState, pc.remoteDesc, pc.localDesc)) =
       some (SigState.stable, some (Desc.offer "a"), some (Desc.answer "b" "a"))) ∧
     ((lookupA "b" ((handleSignal (glareAnswer "b" "a")
         ((handleSignal (glareOffer "b" "a") (glareSess "a" "b")).1)).1).peerConnections).map
         (fun pc => (pc.signalingState, pc.localDesc, pc.remoteDesc)) =
       some (SigState.stable, some (Desc.offer "a"), some (Desc.answer "b" "a")))) :=
  ⟨by decide, glare_lower_id_offer_prevails "a" "b" (by decide)⟩

theorem setPC_callState (p : String) (f : PC → PC) (s : Session) :
    (setPC p f s).callState = s.callState := rfl

theorem makePeer_callState (p : String) (st : MediaStream) (s : Session) :
    (makePeer p st s).2.1.callState = s.callState := by
  unfold makePeer
  cases h : lookupA p s.peerConnections with
  | none => simp
  | some pc =>
    by_cases hc : pc.connectionState = ConnState.connected ∨
        pc.connectionState = ConnState.connecting <;> simp [hc]

theorem sendOffer_callState (p rid : String) (s : Session) :
    (sendOffer p rid s).1.callState = s.callState := by
  unfold sendOffer
  by_cases h : p ∈ s.offerCreatedFor <;> simp [h, setPC]

theorem flushCandidates_callState (p : String) (s : Session) :
    (flushCandidates p s).callState = s.callState := by
  unfold flushCandidates
  cases hq : lookupA p s.pendingCandidates with
  | none => rfl
  | some q => by_cases hqe : q = [] <;> simp [hqe, setPC]

theorem cleanup_callState (s : Session) :
    (cleanup s).1.callState = CallState.idle := rfl

theorem onCallAccept_callState (m : SignalMsg) (s : Session) :
    (onCallAccept m s).1.callState = CallState.connecting := by
  unfold onCallAccept
  cases hst : s.localStream with
  | none => rfl
  | some st =>
    simp [makePeer_callState, sendOffer_callState]

theorem onParticipantJoined_callState (m : SignalMsg) (s : Session) :
    (onParticipantJoined m s).1.callState = s.callState := by
  unfold onParticipantJoined
  cases hst : s.localStream with
  | none => rfl
  | some st =>
    by_cases hlt : idLt s.myUserId m.from_ <;>
      simp [hlt, makePeer_callState, sendOffer_callState]

theorem onOffer_callState (m : SignalMsg) (s : Session) :
    (onOffer m s).1.callState = s.callState := by
  simp only [onOffer]
  repeat' split
  all_goals
    simp_all [makePeer_callState, sendOffer_callState, flushCandidates_callState, setPC]

theorem onAnswer_callState (m : SignalMsg) (s : Session) :
    (onAnswer m s).1.callState = s.callState := by
  simp only [onAnswer]
  repeat' split
  all_goals simp_all [flushCandidates_callState, setPC]

theorem onIceCandidate_callState (m : SignalMsg) (s : Session) :
    (onIceCandidate m s).1.callState = s.callState := by
  simp only [onIceCandidate]
  repeat' split
  all_goals simp_all [setPC]

theorem onPeerGone_callState (m : SignalMsg) (s : Session) :
    (onPeerGone m s).1.callState = s.callState ∨
    (onPeerGone m s).1.callState = CallState.idle := by
  simp only [onPeerGone]
  repeat' split
  all_goals simp_all [cleanup]

theorem listenR1_callState (m : SignalMsg) (s : Session) :
    (listenR1 m s).1.callState = s.callState := by
  simp only [listenR1]
  repeat' split
  all_goals simp_all

theorem rejectCall_callState (s : Session) :
    (rejectCall s).1.callState = s.callState := by
  simp only [rejectCall]
  repeat' split
  all_goals simp_all

theorem initiateCall_callState (roomId : String) (targets : List String) (video : Bool)
    (media : Option MediaStream) (channelOk : Bool) (s : Session) :
    (initiateCall roomId targets video media channelOk s).1.callState = s.callState ∨
    ((initiateCall roomId targets video media channelOk s).1.callState = CallState.ringing ∧
      s.callState = CallState.idle) ∨
    (initiateCall roomId targets video media channelOk s).1.callState = CallState.idle := by
  simp only [initiateCall]
  repeat' split
  all_goals simp_all [cleanup]

theorem acceptCall_callState (media : Option MediaStream) (channelOk : Bool) (s : Session) :
    (acceptCall media channelOk s).1.callState = s.callState ∨
    ((acceptCall media channelOk s).1.callState = CallState.connecting ∧
      s.incomingCall ≠ none) ∨
    (acceptCall media channelOk s).1.callState = CallState.idle := by
  simp only [acceptCall]
  repeat' split
  all_goals simp_all [cleanup]

theorem onConnChange_callState (p : String) (cs : ConnState) (s : Session) :
    (onConnChange p cs s).1.callState = s.callState ∨
    (onConnChange p cs s).1.callState = CallState.connected ∨
    (onConnChange p cs s).1.callState = CallState.idle := by
  simp only [onConnChange]
  repeat' split
  all_goals simp_all [cleanup, setPC]

theorem onRingTimeout_callState (s : Session) :
    (onRingTimeout s).1.callState = s.callState ∨
    (onRingTimeout s).1.callState = CallState.idle := by
  simp only [onRingTimeout]
  repeat' split
  all_goals simp_all [cleanup]

theorem endCall_callState (s : Session) :
    (endCall s).1.callState = CallState.idle := rfl

theorem handleSignal_callState (m : SignalMsg) (s : Session) :
    (handleSignal m s).1.callState = s.callState ∨
    ((handleSignal m s).1.callState = CallState.connecting ∧ m.stype = "call-accept") ∨
    (handleSignal m s).1.callState = CallState.idle := by
  simp only [handleSignal]
  repeat' split
  · left; rfl
  · right; left; exact ⟨onCallAccept_callState m s, by assumption⟩
  · left; exact onParticipantJoined_callState m s
  · left; exact onOffer_callState m s
  · left; exact onAnswer_callState m s
  · left; exact onIceCandidate_callState m s
  · rcases onPeerGone_callState m s with h | h
    · left; exact h
    · right; right; exact h
  · left; rfl

/-- C8 amended: excluding the unused `ended` constructor, every event
either keeps the call state's rank (`idle < ringing < connecting <
connected`) non-decreasing, tears the session down to `idle`, or is one
of the two accept events (`call-accept` received, local accept), which
are the only events that can move the state backwards — from
`Connected` back to `Connecting`.  In particular `Ringing` is never
re-entered from `Connecting` or `Connected`. -/
theorem state_forward_except_reaccept (s : Session) (e : Event)
    (hne : s.callState ≠ CallState.ended) :
    (rank (step s e).1.callState ≥ rank s.callState ∨
     (step s e).1.callState = CallState.idle ∨
     (s.callState = CallState.connected ∧
      (step s e).1.callState = CallState.connecting ∧ isAcceptEvent e = true)) ∧
    ((step s e).1.callState = CallState.ringing →
      s.callState = CallState.ringing ∨ s.callState = CallState.idle) := by
  cases e with
  | sig m =>
    simp only [step]
    rcases handleSignal_callState m s with h | ⟨h, hacc⟩ | h
    · constructor
      · left; rw [h]
      · intro hr; rw [h] at hr; left; exact hr
    · constructor
      · rcases hcs : s.callState with _ | _ | _ | _ | _
        · left; rw [h]; decide
        · left; rw [h]; decide
        · left; rw [h]
        · right; right
          exact ⟨rfl, h, by simp [isAcceptEvent, hacc]⟩
        · exact absurd hcs hne
      · intro hr; rw [h] at hr; simp at hr
    · constructor
      · right; left; exact h
      · intro hr; rw [h] at hr; simp at hr
  | invite m =>
    simp only [step]
    have h := listenR1_callState m s
    exact ⟨Or.inl (by rw [h]), fun hr => Or.inl (by rw [h] at hr; exact hr)⟩
  | localInitiate roomId targets video media channelOk =>
    simp only [step]
    rcases initiateCall_callState roomId targets video media channelOk s with h | ⟨h, hi⟩ | h
    · exact ⟨Or.inl (by rw [h]), fun hr => Or.inl (by rw [h] at hr; exact hr)⟩
    · constructor
      · left; rw [h, hi]; decide
      · intro hr; right; exact hi
    · constructor
      · right; left; exact h
      · intro hr; rw [h] at hr; simp at hr
  | localAccept media channelOk =>
    simp only [step]
    rcases acceptCall_callState media channelOk s with h | ⟨h, _⟩ | h
    · exact ⟨Or.inl (by rw [h]), fun hr => Or.inl (by rw [h] at hr; exact hr)⟩
    · constructor
      · rcases hcs : s.callState with _ | _ | _ | _ | _
        · left; rw [h]; decide
        · left; rw [h]; decide
        · left; rw [h]
        · right; right; exact ⟨rfl, h, by simp [isAcceptEvent]⟩
        · exact absurd hcs hne
      · intro hr; rw [h] at hr; simp at hr
    · constructor
      · right; left; exact h
      · intro hr; rw [h] at hr; simp at hr
  | localReject =>
    simp only [step]
    have h := rejectCall_callState s
    exact ⟨Or.inl (by rw [h]), fun hr => Or.inl (by rw [h] at hr; exact hr)⟩
  | localEnd =>
    simp only [step]
    have h := endCall_callState s
    exact ⟨Or.inr (Or.inl h), fun hr => by rw [h] at hr; simp at hr⟩
  | connChange p cs =>
    simp only [step]
    rcases onConnChange_callState p cs s with h | h | h
    · exact ⟨Or.inl (by rw [h]), fun hr => Or.inl (by rw [h] at hr; exact hr)⟩
    · constructor
      · left
        rw [h]
        rcases hcs : s.callState with _ | _ | _ | _ | _ <;>
          first | exact absurd hcs hne | decide
      · intro hr; rw [h] at hr; simp at hr
    · constructor
      · right; left; exact h
      · intro hr; rw [h] at hr; simp at hr
  | ringTimeout =>
    simp only [step]
    rcases onRingTimeout_callState s with h | h
    · exact ⟨Or.inl (by rw [h]), fun hr => Or.inl (by rw [h] at hr; exact hr)⟩
    · constructor
      · right; left; exact h
      · intro hr; rw [h] at hr; simp at hr

/-- Witness for the amended C8: a connected session receiving a stale
`call-accept` falls back to `connecting` — the accept exception. -/
theorem state_forward_except_reaccept_witness :
    ({ initSession "a" with callState := CallState.connected } : Session).callState ≠
      CallState.ended ∧
    ((rank (step { initSession "a" with callState := CallState.connected }
        (Event.sig { stype := "call-accept", from_ := "b", to_ := "a", roomId := "r" })).1.callState ≥
      rank ({ initSession "a" with callState := CallState.connected } : Session).callState ∨
     (step { initSession "a" with callState := CallState.connected }
        (Event.sig { stype := "call-accept", from_ := "b", to_ := "a", roomId := "r" })).1.callState =
       CallState.idle ∨
     (({ initSession "a" with callState := CallState.connected } : Session).callState =
        CallState.connected ∧
      (step { initSession "a" with callState := CallState.connected }
        (Event.sig { stype := "call-accept", from_ := "b", to_ := "a", roomId := "r" })).1.callState =
        CallState.connecting ∧
      isAcceptEvent (Event.sig { stype := "call-accept", from_ := "b", to_ := "a", roomId := "r" }) =
        true)) ∧
    ((step { initSession "a" with callState := CallState.connected }
        (Event.sig { stype := "call-accept", from_ := "b", to_ := "a", roomId := "r" })).1.callState =
       CallState.ringing →
      ({ initSession "a" with callState := CallState.connected } : Session).callState =
        CallState.ringing ∨
      ({ initSession "a" with callState := CallState.connected } : Session).callState =
        CallState.idle)) :=
  ⟨by decide,
   state_forward_except_reaccept { initSession "a" with callState := CallState.connected }
     (Event.sig { stype := "call-accept", from_ := "b", to_ := "a", roomId := "r" })
     (by decide)⟩

/-- C8 counterexample: in a reachable group-call state the session is
`Connected`, and the second target's (non-teardown) `call-accept`
signal moves it BACK to `Connecting` — the state machine does move to
an earlier state. -/
theorem call_accept_regression_counterexample :
    c8Pre.callState = CallState.connected ∧
    (step c8Pre (Event.sig c8Accept)).1.callState = CallState.connecting ∧
    rank (step c8Pre (Event.sig c8Accept)).1.callState < rank c8Pre.callState := by
  decide
